import Mathlib

/-!
Shallow embedding of the GPU video pipeline in `src/pipeline.rs` and the
widget glue in `src/player.rs` of the `cushy_video` crate.

Modelling conventions:

* GPU handles (`wgpu::Texture`, `wgpu::TextureView`, `wgpu::Buffer`,
  `wgpu::BindGroup`, `wgpu::Sampler`) are natural-number resource ids
  allocated by the counter `GpuState.nextId`; the descriptor data the source
  passes to the device is recorded in the corresponding association list, so
  "allocates a resource" is observable as growth of these lists.
* An `Arc<AtomicBool>` liveness flag is modelled by its identity (a `Nat`);
  the boolean each flag holds at the moment an operation runs is an
  environment `flags : Nat → Bool` passed to the operations that read flags
  (`cleanup` reads them with `Ordering::SeqCst`).
* `BTreeMap<u64, VideoEntry>` is modelled as an association list with
  first-match lookup (`alookup`); `upload` inserts only on a vacant key, so
  key ordering is irrelevant to every claim.
* Machine integers (`u32` ids, dimensions, byte counts) are modelled as
  `Nat`; the `f32` rectangle written by `prepare` holds unsigned pixel
  coordinates (`UPx`), recorded here as the exact `Nat` values.
* Rust panics (out-of-bounds slice, `.unwrap()` on `None`, and `wgpu`
  validation failures of `Queue::write_texture`, which are fatal uncaptured
  errors) are modelled as `Option`: `none` is a panic / fatal error, never a
  recoverable error value returned to the host.
* Every operation appends `Event`s describing the calls it makes to a log
  field; the log is pure instrumentation (nothing reads it) used to state
  the ordering and call-count claims.
-/

/-- Texture formats used by the pipeline: `R8Unorm` for the luma plane,
`Rg8Unorm` for the interleaved chroma plane. -/
inductive TextureFormat where
  | r8Unorm
  | rg8Unorm
deriving DecidableEq, Repr

/-- Bytes per texel block of a format (`R8Unorm` is 1 byte, `Rg8Unorm` 2). -/
def blockSize : TextureFormat → Nat
  | .r8Unorm => 1
  | .rg8Unorm => 2

/-- Mirror of `wgpu::Extent3d`. -/
structure Extent3d where
  width : Nat
  height : Nat
  depthOrArrayLayers : Nat
deriving DecidableEq, Repr

/-- The fields of `wgpu::TextureDescriptor` the claims depend on (size and
format; mip/sample counts and usages are constant in the source). -/
structure TextureDesc where
  size : Extent3d
  format : TextureFormat
deriving DecidableEq, Repr

/-- Mirror of `VideoEntry` in `src/pipeline.rs`: the handles are resource
ids, `alive` is the identity of the shared `Arc<AtomicBool>`. -/
structure VideoEntry where
  texture_y : Nat
  texture_uv : Nat
  uniforms : Nat
  bg0 : Nat
  alive : Nat
deriving DecidableEq, Repr

/-- Observable calls made by the pipeline operations; `setIndexBuffer` and
`drawIndexed` exist so "non-indexed draw" is expressible, the source never
emits them. -/
inductive Event where
  | upload (id : Nat)
  | writeRect (id : Nat)
  | sweep
  | setPipeline
  | setBindGroup (index bg : Nat)
  | setIndexBuffer
  | draw (vertices instances : Nat)
  | drawIndexed (indices instances : Nat)
deriving DecidableEq, Repr

/-- Record of one `Queue::write_texture` call: target texture, the
`ImageDataLayout` fields, the copy extent and the byte slice passed. -/
structure TexWrite where
  texture : Nat
  bytesPerRow : Nat
  rowsPerImage : Nat
  extent : Extent3d
  data : List Nat
deriving DecidableEq, Repr

/-- State of the graphics device and queue: an id counter, the resources
created so far (with their descriptors), current uniform-buffer contents,
the texture writes issued, and the ids destroyed. -/
structure GpuState where
  nextId : Nat
  textures : List (Nat × TextureDesc)
  views : List (Nat × Nat)
  buffers : List (Nat × Nat)
  bindGroups : List (Nat × List Nat)
  bufData : List (Nat × List Nat)
  texWrites : List TexWrite
  destroyed : List Nat
deriving DecidableEq, Repr

/-- Combined state of a `VideoPipeline` (its sampler id and `videos` map)
together with the device/queue state and the instrumentation log. -/
structure St where
  sampler : Nat
  videos : List (Nat × VideoEntry)
  gpu : GpuState
  log : List Event
deriving DecidableEq, Repr

/-- First-match association-list lookup, the model of `BTreeMap::get`. -/
def alookup {α : Type} : List (Nat × α) → Nat → Option α
  | [], _ => none
  | p :: ps, k => if p.1 = k then some p.2 else alookup ps k

/-- Lookup in the `videos` map (`self.videos.get(&video_id)`). -/
def lookupVideo (st : St) (id : Nat) : Option VideoEntry :=
  alookup st.videos id

/-- Descriptor of a created texture, by id. -/
def lookupTexture (gpu : GpuState) (t : Nat) : Option TextureDesc :=
  alookup gpu.textures t

/-- Current contents of a uniform buffer, by id (most recent write wins). -/
def bufContents (gpu : GpuState) (b : Nat) : Option (List Nat) :=
  alookup gpu.bufData b

/-- Model of `Device::create_texture`: returns a fresh id and records the
descriptor. -/
def createTexture (gpu : GpuState) (desc : TextureDesc) : Nat × GpuState :=
  (gpu.nextId,
   { gpu with nextId := gpu.nextId + 1, textures := (gpu.nextId, desc) :: gpu.textures })

/-- Model of `Texture::create_view` (whole-texture view, as in the source). -/
def createView (gpu : GpuState) (tex : Nat) : Nat × GpuState :=
  (gpu.nextId,
   { gpu with nextId := gpu.nextId + 1, views := (gpu.nextId, tex) :: gpu.views })

/-- Model of `Device::create_buffer` with the given byte size. -/
def createBuffer (gpu : GpuState) (size : Nat) : Nat × GpuState :=
  (gpu.nextId,
   { gpu with nextId := gpu.nextId + 1, buffers := (gpu.nextId, size) :: gpu.buffers })

/-- Model of `Device::create_bind_group`; `entries` are the bound resource
ids in binding order. -/
def createBindGroup (gpu : GpuState) (entries : List Nat) : Nat × GpuState :=
  (gpu.nextId,
   { gpu with nextId := gpu.nextId + 1, bindGroups := (gpu.nextId, entries) :: gpu.bindGroups })

/-- The `destroy()` call on a texture or buffer: marks the id released. -/
def destroyRes (gpu : GpuState) (rid : Nat) : GpuState :=
  { gpu with destroyed := rid :: gpu.destroyed }

/-- Model of `Queue::write_buffer` at offset 0: the buffer contents become
exactly the written values. -/
def writeBuffer (gpu : GpuState) (buf : Nat) (vals : List Nat) : GpuState :=
  { gpu with bufData := (buf, vals) :: gpu.bufData }

/-- Byte size of `Uniforms` (`size_of`): four `f32` fields, 16 bytes. -/
def uniformsSize : Nat := 16

/-- Minimal data size `wgpu` requires for a copy of `rows` rows whose rows
are laid out `bytesPerRow` apart and whose last row holds `rowBytes` bytes. -/
def requiredBytes (bytesPerRow rowBytes rows : Nat) : Nat :=
  if rows = 0 then 0 else (rows - 1) * bytesPerRow + rowBytes

/-- Model of `Queue::write_texture` with origin zero and mip 0, following
wgpu's documented validation: the copy extent must fit the texture, the row
pitch must cover a row of blocks, `rows_per_image` must cover the copy
height, and `data` must hold the bytes the layout describes; a validation
failure is a fatal (uncaptured) error, modelled as `none`.  Extra trailing
bytes in `data` beyond the described copy are ignored. -/
def writeTexture (gpu : GpuState) (tex : Nat) (data : List Nat)
    (bytesPerRow rowsPerImage : Nat) (extent : Extent3d) : Option GpuState :=
  match lookupTexture gpu tex with
  | none => none
  | some desc =>
    let rowBytes := extent.width * blockSize desc.format
    if extent.width ≤ desc.size.width ∧ extent.height ≤ desc.size.height ∧
        (extent.height ≤ 1 ∨ rowBytes ≤ bytesPerRow) ∧
        extent.height ≤ rowsPerImage ∧
        requiredBytes bytesPerRow rowBytes extent.height ≤ data.length then
      some { gpu with texWrites := ⟨tex, bytesPerRow, rowsPerImage, extent, data⟩ :: gpu.texWrites }
    else none

/-- Rust slice `&frame[..n]`: panics (`none`) when `n` exceeds the length. -/
def sliceTo (bytes : List Nat) (n : Nat) : Option (List Nat) :=
  if n ≤ bytes.length then some (bytes.take n) else none

/-- Rust slice `&frame[n..]`: panics (`none`) when `n` exceeds the length. -/
def sliceFrom (bytes : List Nat) (n : Nat) : Option (List Nat) :=
  if n ≤ bytes.length then some (bytes.drop n) else none

/-- The state `VideoPipeline::new` builds: a fresh sampler (id 0), an empty
`videos` map, no other resources yet (the shader/pipeline objects carry no
per-video state and are omitted). -/
def VideoPipeline.new : St :=
  { sampler := 0,
    videos := [],
    gpu := { nextId := 1, textures := [], views := [], buffers := [], bindGroups := [],
             bufData := [], texWrites := [], destroyed := [] },
    log := [] }

/-- Mirror of `VideoPipeline::upload` (src/pipeline.rs:140-290).  On a
vacant key it creates the luma texture (`width x height`, `R8Unorm`), the
chroma texture (`width/2 x height/2`, `Rg8Unorm`), the two views, the
16-byte uniform buffer and the bind group over `[view_y, view_uv, sampler,
uniforms]`, and inserts the entry capturing the passed `alive` flag.  It
then writes `frame[..width*height]` into the luma texture's full extent and
`frame[width*height..]` into the chroma texture's full extent, with the
layouts of the source (`bytes_per_row = width` for both writes). -/
def VideoPipeline.upload (st0 : St) (video_id alive : Nat) (width height : Nat)
    (frame : List Nat) : Option St :=
  let st1 := { st0 with log := st0.log ++ [Event.upload video_id] }
  let st :=
    if (alookup st1.videos video_id).isNone then
      let ty := createTexture st1.gpu ⟨⟨width, height, 1⟩, .r8Unorm⟩
      let tuv := createTexture ty.2 ⟨⟨width / 2, height / 2, 1⟩, .rg8Unorm⟩
      let vy := createView tuv.2 ty.1
      let vuv := createView vy.2 tuv.1
      let buf := createBuffer vuv.2 uniformsSize
      let bg := createBindGroup buf.2 [vy.1, vuv.1, st1.sampler, buf.1]
      { st1 with gpu := bg.2,
                 videos := (video_id, ⟨ty.1, tuv.1, buf.1, bg.1, alive⟩) :: st1.videos }
    else st1
  match alookup st.videos video_id with
  | none => none
  | some v => do
    let lum ← sliceTo frame (width * height)
    let gpu1 ← writeTexture st.gpu v.texture_y lum width height ⟨width, height, 1⟩
    let chr ← sliceFrom frame (width * height)
    let gpu2 ← writeTexture gpu1 v.texture_uv chr width (height / 2)
        ⟨width / 2, height / 2, 1⟩
    some { st with gpu := gpu2 }

/-- One iteration of the removal loop in `VideoPipeline::cleanup`:
`if let Some(video) = self.videos.remove(&id) { destroy the two textures
and the uniform buffer }`. -/
def removeDead (st : St) (id : Nat) : St :=
  match alookup st.videos id with
  | some v =>
    { st with
      videos := st.videos.filter (fun p => p.1 != id),
      gpu := destroyRes (destroyRes (destroyRes st.gpu v.texture_y) v.texture_uv) v.uniforms }
  | none => st

/-- Mirror of `VideoPipeline::cleanup` (src/pipeline.rs:292-305): collect
the ids whose liveness flag reads false, then remove each collected id and
destroy its two textures and uniform buffer. -/
def VideoPipeline.cleanup (flags : Nat → Bool) (st0 : St) : St :=
  let st := { st0 with log := st0.log ++ [Event.sweep] }
  let ids := st.videos.filterMap (fun p => if flags p.2.alive then none else some p.1)
  ids.foldl removeDead st

/-- Pixel-unit rectangle (`Rect<UPx>`: nonnegative origin and size). -/
structure URect where
  x : Nat
  y : Nat
  width : Nat
  height : Nat
deriving DecidableEq, Repr

/-- The four values `VideoPipeline::prepare` stores in `Uniforms.rect`:
`[x0, y0, x0 + width, y0 + height]`. -/
def rectVals (r : URect) : List Nat :=
  [r.x, r.y, r.x + r.width, r.y + r.height]

/-- The rectangle-write half of `VideoPipeline::prepare`
(src/pipeline.rs:307-323): if the entry exists, overwrite its uniform
buffer with the four rectangle coordinates; otherwise do nothing. -/
def writeRectStep (st0 : St) (video_id : Nat) (bounds : URect) : St :=
  let st := { st0 with log := st0.log ++ [Event.writeRect video_id] }
  match alookup st.videos video_id with
  | some v => { st with gpu := writeBuffer st.gpu v.uniforms (rectVals bounds) }
  | none => st

/-- Mirror of `VideoPipeline::prepare` (src/pipeline.rs:307-326): the
rectangle write, then `self.cleanup()`. -/
def VideoPipeline.prepare (flags : Nat → Bool) (st : St) (video_id : Nat)
    (bounds : URect) : St :=
  VideoPipeline.cleanup flags (writeRectStep st video_id bounds)

/-- Mirror of `VideoPipeline::draw` (src/pipeline.rs:328-357): when the
entry exists, set the pipeline, bind the entry's bind group at index 0 and
issue `draw(0..4, 0..1)`; otherwise do nothing.  `viewport` is accepted and
unused, as in the source. -/
def VideoPipeline.draw (st : St) (viewport : URect) (video_id : Nat) : St :=
  match alookup st.videos video_id with
  | some v =>
    { st with log := st.log ++ [Event.setPipeline, Event.setBindGroup 0 v.bg0, Event.draw 4 1] }
  | none => st

/-- Mirror of `VideoPrimitive` (src/pipeline.rs:415-440): `frame` holds the
bytes read from the locked frame mutex. -/
structure VideoPrimitive where
  video_id : Nat
  alive : Nat
  frame : List Nat
  size : Nat × Nat
  upload_frame : Bool
deriving DecidableEq, Repr

/-- Mirror of `<VideoRO as RenderOperation>::prepare`
(src/pipeline.rs:372-395): upload the frame when `upload_frame` is set,
then run `VideoPipeline::prepare` with the clip rectangle. -/
def VideoRO.prepare (flags : Nat → Bool) (ctx : VideoPrimitive) (st : St)
    (bounds : URect) : Option St := do
  let st' ←
    if ctx.upload_frame then
      VideoPipeline.upload st ctx.video_id ctx.alive ctx.size.1 ctx.size.2 ctx.frame
    else
      some st
  some (VideoPipeline.prepare flags st' ctx.video_id bounds)

/-- Mirror of `<VideoRO as RenderOperation>::render`
(src/pipeline.rs:397-413): draw the prepared primitive's video id into the
clip rectangle. -/
def VideoRO.render (st : St) (clip : URect) (video_id : Nat) : St :=
  VideoPipeline.draw st clip video_id

/-- The widget state `VideoPlayer::redraw` reads and updates: the last
frame-buffer change generation the consumer acted on. -/
structure PlayerState where
  lastFrame : Nat
deriving DecidableEq, Repr

/-- Mirror of the change-detection half of `VideoPlayer::redraw`
(src/player.rs:108-132): read the frame dynamic's current generation,
request upload exactly when it differs from `last_frame`, and record the
current generation.  Returns the `upload_frame` flag passed into the
`VideoPrimitive` together with the updated widget state. -/
def VideoPlayer.redraw (gen : Nat) (p : PlayerState) : Bool × PlayerState :=
  let upload_frame : Bool := gen != p.lastFrame
  (upload_frame, { lastFrame := gen })

/-- The entry the vacant branch of `upload` inserts when the id counter is
`n`: luma texture `n`, chroma texture `n+1`, views `n+2`/`n+3`, uniform
buffer `n+4`, bind group `n+5`. -/
def freshEntry (n a : Nat) : VideoEntry := ⟨n, n + 1, n + 4, n + 5, a⟩

/-- The device state after the vacant branch of `upload` has created both
textures, both views, the uniform buffer and the bind group. -/
def freshGpu (gpu : GpuState) (w h smp : Nat) : GpuState :=
  { gpu with
    nextId := gpu.nextId + 6,
    textures := (gpu.nextId + 1, ⟨⟨w / 2, h / 2, 1⟩, .rg8Unorm⟩) ::
      (gpu.nextId, ⟨⟨w, h, 1⟩, .r8Unorm⟩) :: gpu.textures,
    views := (gpu.nextId + 3, gpu.nextId + 1) :: (gpu.nextId + 2, gpu.nextId) :: gpu.views,
    buffers := (gpu.nextId + 4, uniformsSize) :: gpu.buffers,
    bindGroups := (gpu.nextId + 5, [gpu.nextId + 2, gpu.nextId + 3, smp, gpu.nextId + 4]) ::
      gpu.bindGroups }


/-- Iterated `upload` with fixed id, flag and dimensions, as produced by a
sequence of redraws that each see a new frame. -/
def uploadSeq (st : St) (id a w h : Nat) : List (List Nat) → Option St
  | [] => some st
  | f :: fs => do
    let st' ← VideoPipeline.upload st id a w h f
    uploadSeq st' id a w h fs

/-- A 6-byte all-zero YUV420 frame for a 2 x 2 video (4 luma bytes plus one
2-byte chroma texel). -/
def frame6 : List Nat := List.replicate 6 0

/-- Pipeline state after one 2 x 2 upload for video id 1 whose liveness
flag has identity 10. -/
def stUp : St :=
  (VideoPipeline.upload VideoPipeline.new 1 10 2 2 frame6).getD VideoPipeline.new

/-- The entry `stUp` holds for id 1. -/
def entryUp : VideoEntry := freshEntry 1 10

/-- A two-entry cache used to exercise the sweep: id 1 with flag 10, id 2
with flag 11. -/
def stTwo : St :=
  { sampler := 0,
    videos := [(1, ⟨100, 101, 102, 103, 10⟩), (2, ⟨200, 201, 202, 203, 11⟩)],
    gpu := { nextId := 300, textures := [], views := [], buffers := [], bindGroups := [],
             bufData := [], texWrites := [], destroyed := [] },
    log := [] }

/-- Flag environment for the witnesses: flag 10 reads true, all others
read false. -/
def flagsW : Nat → Bool := fun n => n == 10

/-- The entry of `stTwo` whose flag reads false under `flagsW`. -/
def entryDead : VideoEntry := ⟨200, 201, 202, 203, 11⟩

/-- A prepared primitive for the witnesses: video id 1, flag 10, a 2 x 2
frame, with no upload requested. -/
def ctxW : VideoPrimitive := ⟨1, 10, frame6, (2, 2), false⟩


/-- A sample destination rectangle. -/
def rectW : URect := ⟨3, 5, 7, 9⟩


/-! ### Association-list lemmas -/

theorem alookup_eq_none_iff {α : Type} {vs : List (Nat × α)} {k : Nat} :
    alookup vs k = none ↔ ∀ p ∈ vs, p.1 ≠ k := by
  induction vs with
  | nil => simp [alookup]
  | cons p ps ih =>
    simp only [alookup]
    by_cases h : p.1 = k
    · simp [h]
    · simp [h, ih]

theorem alookup_mem {α : Type} {vs : List (Nat × α)} {k : Nat} {v : α}
    (h : alookup vs k = some v) : (k, v) ∈ vs := by
  induction vs with
  | nil => simp [alookup] at h
  | cons p ps ih =>
    cases p with
    | mk a b =>
      by_cases hk : a = k
      · simp only [alookup, hk, if_pos] at h
        simp_all
      · simp only [alookup] at h
        rw [if_neg hk] at h
        exact List.mem_cons_of_mem _ (ih h)

theorem mem_alookup {α : Type} {vs : List (Nat × α)} (hnd : (vs.map Prod.fst).Nodup)
    {k : Nat} {v : α} (h : (k, v) ∈ vs) : alookup vs k = some v := by
  induction vs with
  | nil => simp at h
  | cons p ps ih =>
    cases p with
    | mk a b =>
      simp only [List.map_cons, List.nodup_cons] at hnd
      rcases List.mem_cons.mp h with h1 | h1
      · cases h1
        simp [alookup]
      · have hne : a ≠ k := by
          intro hak
          subst hak
          exact hnd.1 (List.mem_map.mpr ⟨(a, v), h1, rfl⟩)
        simp only [alookup]
        rw [if_neg hne]
        exact ih hnd.2 h1

theorem alookup_filter_of_key {α : Type} {vs : List (Nat × α)} {q : Nat × α → Bool} {a : Nat}
    (hq : ∀ p, p.1 = a → q p = true) :
    alookup (vs.filter q) a = alookup vs a := by
  induction vs with
  | nil => rfl
  | cons p ps ih =>
    by_cases ha : p.1 = a
    · rw [List.filter_cons, if_pos (hq p ha)]
      simp [alookup, ha]
    · rw [List.filter_cons]
      by_cases hqp : q p = true
      · simp only [if_pos hqp, alookup]
        rw [if_neg ha, if_neg ha]
        exact ih
      · simp only [hqp]
        simp only [if_false, Bool.false_eq_true]
        rw [ih]
        simp only [alookup]
        rw [if_neg ha]

theorem alookup_filter_none {α : Type} {vs : List (Nat × α)} {q : Nat × α → Bool} {a : Nat}
    (hq : ∀ p, p.1 = a → q p = false) :
    alookup (vs.filter q) a = none := by
  rw [alookup_eq_none_iff]
  intro p hp hpa
  have hm := List.of_mem_filter hp
  rw [hq p hpa] at hm
  exact Bool.noConfusion hm

/-! ### Lemmas about the removal loop of `cleanup` -/

theorem removeDead_videos (st : St) (id : Nat) :
    (removeDead st id).videos = st.videos.filter (fun p => p.1 != id) := by
  unfold removeDead
  cases h : alookup st.videos id with
  | some v => rfl
  | none =>
    have hall := alookup_eq_none_iff.mp h
    simp only
    rw [eq_comm, List.filter_eq_self]
    intro p hp
    simpa using hall p hp

theorem removeDead_log (st : St) (id : Nat) : (removeDead st id).log = st.log := by
  unfold removeDead
  cases alookup st.videos id <;> rfl

theorem removeDead_gpu_misc (st : St) (id : Nat) :
    (removeDead st id).gpu.nextId = st.gpu.nextId ∧
    (removeDead st id).gpu.textures = st.gpu.textures ∧
    (removeDead st id).gpu.views = st.gpu.views ∧
    (removeDead st id).gpu.buffers = st.gpu.buffers ∧
    (removeDead st id).gpu.bindGroups = st.gpu.bindGroups ∧
    (removeDead st id).gpu.bufData = st.gpu.bufData ∧
    (removeDead st id).gpu.texWrites = st.gpu.texWrites := by
  unfold removeDead
  cases alookup st.videos id <;> simp [destroyRes]

theorem removeDead_destroyed_mono (st : St) (id : Nat) {x : Nat}
    (hx : x ∈ st.gpu.destroyed) : x ∈ (removeDead st id).gpu.destroyed := by
  unfold removeDead
  cases alookup st.videos id with
  | none => exact hx
  | some v => simp [destroyRes, hx]

theorem removeDead_hit (st : St) {id : Nat} {v : VideoEntry}
    (h : alookup st.videos id = some v) :
    v.texture_y ∈ (removeDead st id).gpu.destroyed ∧
    v.texture_uv ∈ (removeDead st id).gpu.destroyed ∧
    v.uniforms ∈ (removeDead st id).gpu.destroyed := by
  unfold removeDead
  rw [h]
  simp [destroyRes]

theorem removeDead_alookup_ne (st : St) {a b : Nat} (h : a ≠ b) :
    alookup (removeDead st b).videos a = alookup st.videos a := by
  rw [removeDead_videos]
  exact alookup_filter_of_key (fun p hp => by simp [hp, h])

theorem removeDead_alookup_self (st : St) (id : Nat) :
    alookup (removeDead st id).videos id = none := by
  rw [removeDead_videos]
  exact alookup_filter_none (fun p hp => by simp [hp])

theorem removeDead_keys_nodup (st : St) (id : Nat)
    (hnd : (st.videos.map Prod.fst).Nodup) :
    ((removeDead st id).videos.map Prod.fst).Nodup := by
  rw [removeDead_videos]
  exact (List.Sublist.map Prod.fst (List.filter_sublist _)).nodup hnd

theorem foldl_removeDead_destroyed_mono (ids : List Nat) (st : St) {x : Nat}
    (hx : x ∈ st.gpu.destroyed) : x ∈ (ids.foldl removeDead st).gpu.destroyed := by
  induction ids generalizing st with
  | nil => exact hx
  | cons a as ih => exact ih _ (removeDead_destroyed_mono st a hx)

theorem foldl_removeDead_log (ids : List Nat) (st : St) :
    (ids.foldl removeDead st).log = st.log := by
  induction ids generalizing st with
  | nil => rfl
  | cons a as ih => rw [List.foldl_cons, ih, removeDead_log]

theorem foldl_removeDead_alookup_not_mem (ids : List Nat) (st : St) {id : Nat}
    (h : id ∉ ids) :
    alookup (ids.foldl removeDead st).videos id = alookup st.videos id := by
  induction ids generalizing st with
  | nil => rfl
  | cons a as ih =>
    rw [List.foldl_cons, ih _ (fun hmem => h (List.mem_cons_of_mem a hmem)),
      removeDead_alookup_ne st (fun hai => h (by rw [hai]; exact List.mem_cons_self a as))]

theorem foldl_removeDead_alookup_none (ids : List Nat) (st : St) {id : Nat}
    (h : alookup st.videos id = none) :
    alookup (ids.foldl removeDead st).videos id = none := by
  induction ids generalizing st with
  | nil => exact h
  | cons a as ih =>
    rw [List.foldl_cons]
    apply ih
    by_cases hai : id = a
    · subst hai; exact removeDead_alookup_self st id
    · rw [removeDead_alookup_ne st hai]; exact h

theorem foldl_removeDead_alookup_mem (ids : List Nat) (st : St) {id : Nat}
    (h : id ∈ ids) :
    alookup (ids.foldl removeDead st).videos id = none := by
  induction ids generalizing st with
  | nil => simp at h
  | cons a as ih =>
    rw [List.foldl_cons]
    by_cases hai : id = a
    · subst hai
      exact foldl_removeDead_alookup_none as _ (removeDead_alookup_self st id)
    · rcases List.mem_cons.mp h with h1 | h1
      · exact absurd h1 hai
      · exact ih _ h1

set_option maxHeartbeats 400000

theorem foldl_removeDead_destroys (ids : List Nat) (st : St) {id : Nat} {v : VideoEntry}
    (hmem : id ∈ ids) (hl : alookup st.videos id = some v) :
    v.texture_y ∈ (ids.foldl removeDead st).gpu.destroyed ∧
    v.texture_uv ∈ (ids.foldl removeDead st).gpu.destroyed ∧
    v.uniforms ∈ (ids.foldl removeDead st).gpu.destroyed := by
  induction ids generalizing st with
  | nil => simp at hmem
  | cons a as ih =>
    rw [List.foldl_cons]
    by_cases hai : id = a
    · subst hai
      obtain ⟨h1, h2, h3⟩ := removeDead_hit st hl
      exact ⟨foldl_removeDead_destroyed_mono as _ h1,
             foldl_removeDead_destroyed_mono as _ h2,
             foldl_removeDead_destroyed_mono as _ h3⟩
    · rcases List.mem_cons.mp hmem with h1 | h1
      · exact absurd h1 hai
      · exact ih _ h1 ((removeDead_alookup_ne st hai).trans hl)

theorem mem_deadIds {flags : Nat → Bool} {vs : List (Nat × VideoEntry)} {id : Nat} :
    id ∈ vs.filterMap (fun p => if flags p.2.alive then none else some p.1) ↔
      ∃ p ∈ vs, p.1 = id ∧ flags p.2.alive = false := by
  rw [List.mem_filterMap]
  constructor
  · rintro ⟨p, hp, hf⟩
    by_cases h : flags p.2.alive
    · simp [h] at hf
    · simp only [h, if_false, Option.some_inj, Bool.false_eq_true] at hf
      exact ⟨p, hp, hf, by simpa using h⟩
  · rintro ⟨p, hp, hid, hfalse⟩
    exact ⟨p, hp, by simp [hfalse, hid]⟩

/-- C1: after a call to `cleanup` (the sweep), an entry remains in the cache
if and only if its liveness flag read true at the time of the call; every
entry whose flag read false has its two textures and its uniform buffer
destroyed and is removed from the map, and entries with a true flag are left
unchanged (the surviving entry is the same `VideoEntry`). -/
theorem c1_sweep_iff_alive (flags : Nat → Bool) (st : St) (id : Nat) (e : VideoEntry)
    (hnd : (st.videos.map Prod.fst).Nodup) :
    (lookupVideo (VideoPipeline.cleanup flags st) id = some e ↔
      lookupVideo st id = some e ∧ flags e.alive = true) ∧
    ((id, e) ∈ st.videos → flags e.alive = false →
      e.texture_y ∈ (VideoPipeline.cleanup flags st).gpu.destroyed ∧
      e.texture_uv ∈ (VideoPipeline.cleanup flags st).gpu.destroyed ∧
      e.uniforms ∈ (VideoPipeline.cleanup flags st).gpu.destroyed) := by
  simp only [VideoPipeline.cleanup, lookupVideo]
  set st1 : St := { st with log := st.log ++ [Event.sweep] } with hst1
  set ids := st.videos.filterMap (fun p => if flags p.2.alive then none else some p.1)
    with hids
  have hvid : st1.videos = st.videos := rfl
  constructor
  · constructor
    · intro h
      by_cases hmem : id ∈ ids
      · rw [foldl_removeDead_alookup_mem ids st1 hmem] at h
        exact Option.noConfusion h
      · rw [foldl_removeDead_alookup_not_mem ids st1 hmem, hvid] at h
        refine ⟨h, ?_⟩
        by_contra hfalse
        apply hmem
        rw [hids, mem_deadIds]
        exact ⟨(id, e), alookup_mem h, rfl, by simpa using hfalse⟩
    · rintro ⟨hl, halive⟩
      by_cases hmem : id ∈ ids
      · exfalso
        rw [hids, mem_deadIds] at hmem
        obtain ⟨p, hp, hpid, hpdead⟩ := hmem
        have hpmem : (id, p.2) ∈ st.videos := by rw [← hpid]; exact hp
        have hpl := mem_alookup hnd hpmem
        rw [hl] at hpl
        have heq : e = p.2 := by injection hpl
        rw [heq, hpdead] at halive
        exact Bool.noConfusion halive
      · rw [foldl_removeDead_alookup_not_mem ids st1 hmem, hvid]
        exact hl
  · intro hmem hdead
    have hid_in : id ∈ ids := by
      rw [hids, mem_deadIds]
      exact ⟨(id, e), hmem, rfl, hdead⟩
    have hl : alookup st1.videos id = some e := by
      rw [hvid]
      exact mem_alookup hnd hmem
    exact foldl_removeDead_destroys ids st1 hid_in hl

/-! ### Lemmas about `writeTexture` and `upload` -/

theorem writeTexture_some_shape {gpu gpu' : GpuState} {tex : Nat} {data : List Nat}
    {bpr rpi : Nat} {ext : Extent3d}
    (h : writeTexture gpu tex data bpr rpi ext = some gpu') :
    gpu' = { gpu with texWrites := ⟨tex, bpr, rpi, ext, data⟩ :: gpu.texWrites } := by
  unfold writeTexture at h
  cases hl : lookupTexture gpu tex with
  | none => rw [hl] at h; exact Option.noConfusion h
  | some desc =>
    rw [hl] at h
    dsimp only at h
    split at h
    · exact (Option.some_inj.mp h).symm
    · exact Option.noConfusion h

theorem writeTexture_success {gpu : GpuState} {tex : Nat} {data : List Nat}
    {bpr rpi : Nat} {ext : Extent3d} {desc : TextureDesc}
    (hdesc : lookupTexture gpu tex = some desc)
    (h1 : ext.width ≤ desc.size.width) (h2 : ext.height ≤ desc.size.height)
    (h3 : ext.height ≤ 1 ∨ ext.width * blockSize desc.format ≤ bpr)
    (h4 : ext.height ≤ rpi)
    (h5 : requiredBytes bpr (ext.width * blockSize desc.format) ext.height ≤ data.length) :
    writeTexture gpu tex data bpr rpi ext =
      some { gpu with texWrites := ⟨tex, bpr, rpi, ext, data⟩ :: gpu.texWrites } := by
  unfold writeTexture
  rw [hdesc]
  dsimp only
  rw [if_pos ⟨h1, h2, h3, h4, h5⟩]

theorem writeTexture_data_short {gpu : GpuState} {tex : Nat} {data : List Nat}
    {bpr rpi : Nat} {ext : Extent3d} {desc : TextureDesc}
    (hdesc : lookupTexture gpu tex = some desc)
    (h5 : data.length < requiredBytes bpr (ext.width * blockSize desc.format) ext.height) :
    writeTexture gpu tex data bpr rpi ext = none := by
  unfold writeTexture
  rw [hdesc]
  dsimp only
  rw [if_neg]
  rintro ⟨-, -, -, -, hc⟩
  omega

theorem upload_present {st0 : St} {id a w h : Nat} {frame : List Nat} {v : VideoEntry}
    (hv : alookup st0.videos id = some v) :
    VideoPipeline.upload st0 id a w h frame =
      (do
        let lum ← sliceTo frame (w * h)
        let gpu1 ← writeTexture st0.gpu v.texture_y lum w h ⟨w, h, 1⟩
        let chr ← sliceFrom frame (w * h)
        let gpu2 ← writeTexture gpu1 v.texture_uv chr w (h / 2) ⟨w / 2, h / 2, 1⟩
        some { st0 with log := st0.log ++ [Event.upload id], gpu := gpu2 }) := by
  unfold VideoPipeline.upload
  dsimp only
  rw [hv]
  simp only [Option.isNone_some, Bool.false_eq_true, if_false]
  rw [hv]

theorem upload_vacant {st0 : St} {id a w h : Nat} {frame : List Nat}
    (hv : alookup st0.videos id = none) :
    VideoPipeline.upload st0 id a w h frame =
      (do
        let lum ← sliceTo frame (w * h)
        let gpu1 ← writeTexture (freshGpu st0.gpu w h st0.sampler) st0.gpu.nextId lum w h
          ⟨w, h, 1⟩
        let chr ← sliceFrom frame (w * h)
        let gpu2 ← writeTexture gpu1 (st0.gpu.nextId + 1) chr w (h / 2) ⟨w / 2, h / 2, 1⟩
        some { st0 with
          videos := (id, freshEntry st0.gpu.nextId a) :: st0.videos,
          gpu := gpu2,
          log := st0.log ++ [Event.upload id] }) := by
  unfold VideoPipeline.upload
  dsimp only
  rw [hv]
  simp only [Option.isNone_none, eq_self_iff_true, if_true]
  simp [alookup, createTexture, createView, createBuffer, createBindGroup, freshGpu, freshEntry]

theorem sliceTo_some {bytes : List Nat} {n : Nat} {out : List Nat}
    (h : sliceTo bytes n = some out) : n ≤ bytes.length ∧ out = bytes.take n := by
  unfold sliceTo at h
  by_cases hn : n ≤ bytes.length
  · rw [if_pos hn] at h
    exact ⟨hn, (Option.some_inj.mp h).symm⟩
  · rw [if_neg hn] at h
    exact Option.noConfusion h

theorem sliceFrom_some {bytes : List Nat} {n : Nat} {out : List Nat}
    (h : sliceFrom bytes n = some out) : n ≤ bytes.length ∧ out = bytes.drop n := by
  unfold sliceFrom at h
  by_cases hn : n ≤ bytes.length
  · rw [if_pos hn] at h
    exact ⟨hn, (Option.some_inj.mp h).symm⟩
  · rw [if_neg hn] at h
    exact Option.noConfusion h

theorem chain_st_some {gA : GpuState} {frame : List Nat}
    {n t1 t2 bpr1 rpi1 bpr2 rpi2 : Nat} {e1 e2 : Extent3d} {f : GpuState → St} {st' : St}
    (hs : (do
        let lum ← sliceTo frame n
        let gpu1 ← writeTexture gA t1 lum bpr1 rpi1 e1
        let chr ← sliceFrom frame n
        let gpu2 ← writeTexture gpu1 t2 chr bpr2 rpi2 e2
        some (f gpu2)) = some st') :
    n ≤ frame.length ∧
    st' = f { gA with texWrites := ⟨t2, bpr2, rpi2, e2, frame.drop n⟩ ::
        ⟨t1, bpr1, rpi1, e1, frame.take n⟩ :: gA.texWrites } := by
  cases h1 : sliceTo frame n with
  | none => rw [h1] at hs; simp at hs
  | some lum =>
    rw [h1] at hs
    simp only [Option.bind_eq_bind, Option.some_bind] at hs
    cases h2 : writeTexture gA t1 lum bpr1 rpi1 e1 with
    | none => rw [h2] at hs; simp at hs
    | some gpu1 =>
      rw [h2] at hs
      simp only [Option.some_bind] at hs
      cases h3 : sliceFrom frame n with
      | none => rw [h3] at hs; simp at hs
      | some chr =>
        rw [h3] at hs
        simp only [Option.some_bind] at hs
        cases h4 : writeTexture gpu1 t2 chr bpr2 rpi2 e2 with
        | none => rw [h4] at hs; simp at hs
        | some gpu2 =>
          rw [h4] at hs
          simp only [Option.some_bind, Option.some_inj] at hs
          obtain ⟨hn, hlum⟩ := sliceTo_some h1
          obtain ⟨-, hchr⟩ := sliceFrom_some h3
          have hg1 := writeTexture_some_shape h2
          have hg2 := writeTexture_some_shape h4
          refine ⟨hn, ?_⟩
          rw [← hs, hg2, hg1, hlum, hchr]

theorem requiredBytes_luma (w h : Nat) : requiredBytes w (w * 1) h ≤ w * h := by
  unfold requiredBytes
  cases h with
  | zero => simp
  | succ n =>
    rw [if_neg (Nat.succ_ne_zero n), Nat.add_sub_cancel]
    have h1 : n * w + w * 1 = w * (n + 1) := by
      rw [Nat.mul_one, Nat.mul_succ, Nat.mul_comm]
    rw [h1]

theorem requiredBytes_chroma (w h : Nat) (hpar : w % 2 = 0 ∨ h < 4) :
    requiredBytes w (w / 2 * 2) (h / 2) ≤ w / 2 * (h / 2) * 2 := by
  unfold requiredBytes
  cases hk : h / 2 with
  | zero => simp
  | succ k =>
    rw [if_neg (Nat.succ_ne_zero k)]
    rcases hpar with hw | hh
    · have hdvd : w / 2 * 2 = w := Nat.div_mul_cancel (Nat.dvd_of_mod_eq_zero hw)
      rw [Nat.add_sub_cancel]
      have h2 : w / 2 * (k + 1) * 2 = w * (k + 1) := by
        calc w / 2 * (k + 1) * 2 = w / 2 * 2 * (k + 1) := by ring
          _ = w * (k + 1) := by rw [hdvd]
      rw [h2, hdvd]
      have h3 : k * w + w = w * (k + 1) := by ring
      rw [h3]
    · have hk0 : k = 0 := by omega
      subst hk0
      simp

theorem chain_st_success {gA : GpuState} {frame : List Nat} {w h t1 t2 : Nat}
    {f : GpuState → St}
    (hty : lookupTexture gA t1 = some ⟨⟨w, h, 1⟩, .r8Unorm⟩)
    (htuv : lookupTexture gA t2 = some ⟨⟨w / 2, h / 2, 1⟩, .rg8Unorm⟩)
    (hlen : w * h + w / 2 * (h / 2) * 2 ≤ frame.length)
    (hpar : w % 2 = 0 ∨ h < 4) :
    (do
        let lum ← sliceTo frame (w * h)
        let gpu1 ← writeTexture gA t1 lum w h ⟨w, h, 1⟩
        let chr ← sliceFrom frame (w * h)
        let gpu2 ← writeTexture gpu1 t2 chr w (h / 2) ⟨w / 2, h / 2, 1⟩
        some (f gpu2)) =
      some (f { gA with texWrites :=
        ⟨t2, w, h / 2, ⟨w / 2, h / 2, 1⟩, frame.drop (w * h)⟩ ::
        ⟨t1, w, h, ⟨w, h, 1⟩, frame.take (w * h)⟩ :: gA.texWrites }) := by
  have hwh : w * h ≤ frame.length := le_trans (Nat.le_add_right _ _) hlen
  have h1 : sliceTo frame (w * h) = some (frame.take (w * h)) := by
    unfold sliceTo; rw [if_pos hwh]
  have h3 : sliceFrom frame (w * h) = some (frame.drop (w * h)) := by
    unfold sliceFrom; rw [if_pos hwh]
  have htake : (frame.take (w * h)).length = w * h := by
    rw [List.length_take]; exact Nat.min_eq_left hwh
  have hdrop : w / 2 * (h / 2) * 2 ≤ (frame.drop (w * h)).length := by
    rw [List.length_drop]
    have hsub := Nat.sub_le_sub_right hlen (w * h)
    rwa [Nat.add_sub_cancel_left] at hsub
  have h2 : writeTexture gA t1 (frame.take (w * h)) w h ⟨w, h, 1⟩ =
      some { gA with texWrites :=
        ⟨t1, w, h, ⟨w, h, 1⟩, frame.take (w * h)⟩ :: gA.texWrites } := by
    apply writeTexture_success hty (le_refl _) (le_refl _)
    · right
      show w * 1 ≤ w
      rw [Nat.mul_one]
    · exact le_refl _
    · show requiredBytes w (w * 1) h ≤ _
      rw [htake]
      exact requiredBytes_luma w h
  have h4 : writeTexture
      { gA with texWrites := ⟨t1, w, h, ⟨w, h, 1⟩, frame.take (w * h)⟩ :: gA.texWrites }
      t2 (frame.drop (w * h)) w (h / 2) ⟨w / 2, h / 2, 1⟩ =
      some { gA with texWrites :=
        ⟨t2, w, h / 2, ⟨w / 2, h / 2, 1⟩, frame.drop (w * h)⟩ ::
        ⟨t1, w, h, ⟨w, h, 1⟩, frame.take (w * h)⟩ :: gA.texWrites } := by
    have htuv' : lookupTexture
        { gA with texWrites := ⟨t1, w, h, ⟨w, h, 1⟩, frame.take (w * h)⟩ :: gA.texWrites }
        t2 = some ⟨⟨w / 2, h / 2, 1⟩, .rg8Unorm⟩ := htuv
    apply writeTexture_success htuv' (le_refl _) (le_refl _)
    · right
      show w / 2 * 2 ≤ w
      exact Nat.div_mul_le_self w 2
    · exact le_refl _
    · show requiredBytes w (w / 2 * 2) (h / 2) ≤ _
      exact le_trans (requiredBytes_chroma w h hpar) hdrop
  rw [h1]
  simp only [Option.bind_eq_bind, Option.some_bind]
  rw [h2]
  simp only [Option.some_bind]
  rw [h3]
  simp only [Option.some_bind]
  rw [h4]
  simp only [Option.some_bind]

theorem freshGpu_lookup_y (gpu : GpuState) (w h smp : Nat) :
    lookupTexture (freshGpu gpu w h smp) gpu.nextId = some ⟨⟨w, h, 1⟩, .r8Unorm⟩ := by
  have hne : gpu.nextId + 1 ≠ gpu.nextId := by omega
  simp [freshGpu, lookupTexture, alookup, hne]

theorem freshGpu_lookup_uv (gpu : GpuState) (w h smp : Nat) :
    lookupTexture (freshGpu gpu w h smp) (gpu.nextId + 1) =
      some ⟨⟨w / 2, h / 2, 1⟩, .rg8Unorm⟩ := by
  simp [freshGpu, lookupTexture, alookup]

theorem upload_present_success {st0 : St} {id a w h : Nat} {frame : List Nat} {v : VideoEntry}
    (hv : alookup st0.videos id = some v)
    (hty : lookupTexture st0.gpu v.texture_y = some ⟨⟨w, h, 1⟩, .r8Unorm⟩)
    (htuv : lookupTexture st0.gpu v.texture_uv = some ⟨⟨w / 2, h / 2, 1⟩, .rg8Unorm⟩)
    (hlen : w * h + w / 2 * (h / 2) * 2 ≤ frame.length)
    (hpar : w % 2 = 0 ∨ h < 4) :
    VideoPipeline.upload st0 id a w h frame =
      some { st0 with
        log := st0.log ++ [Event.upload id],
        gpu := { st0.gpu with texWrites :=
          ⟨v.texture_uv, w, h / 2, ⟨w / 2, h / 2, 1⟩, frame.drop (w * h)⟩ ::
          ⟨v.texture_y, w, h, ⟨w, h, 1⟩, frame.take (w * h)⟩ :: st0.gpu.texWrites } } := by
  rw [upload_present hv]
  exact chain_st_success hty htuv hlen hpar

theorem upload_vacant_success {st0 : St} {id a w h : Nat} {frame : List Nat}
    (hv : alookup st0.videos id = none)
    (hlen : w * h + w / 2 * (h / 2) * 2 ≤ frame.length)
    (hpar : w % 2 = 0 ∨ h < 4) :
    VideoPipeline.upload st0 id a w h frame =
      some { st0 with
        videos := (id, freshEntry st0.gpu.nextId a) :: st0.videos,
        gpu := { freshGpu st0.gpu w h st0.sampler with texWrites :=
          ⟨st0.gpu.nextId + 1, w, h / 2, ⟨w / 2, h / 2, 1⟩, frame.drop (w * h)⟩ ::
          ⟨st0.gpu.nextId, w, h, ⟨w, h, 1⟩, frame.take (w * h)⟩ :: st0.gpu.texWrites },
        log := st0.log ++ [Event.upload id] } := by
  rw [upload_vacant hv]
  exact chain_st_success (freshGpu_lookup_y st0.gpu w h st0.sampler)
    (freshGpu_lookup_uv st0.gpu w h st0.sampler) hlen hpar

theorem requiredBytes_chroma_ge (w h : Nat) :
    w / 2 * (h / 2) * 2 ≤ requiredBytes w (w / 2 * 2) (h / 2) := by
  unfold requiredBytes
  cases hk : h / 2 with
  | zero => simp
  | succ k =>
    rw [if_neg (Nat.succ_ne_zero k), Nat.add_sub_cancel]
    have h1 : w / 2 * (k + 1) * 2 = k * (w / 2 * 2) + w / 2 * 2 := by ring
    rw [h1]
    have h2 : w / 2 * 2 ≤ w := Nat.div_mul_le_self w 2
    exact Nat.add_le_add (Nat.mul_le_mul (le_refl k) h2) (le_refl _)

theorem chain_st_short {gA : GpuState} {frame : List Nat} {w h t1 t2 : Nat}
    {f : GpuState → St}
    (hty : lookupTexture gA t1 = some ⟨⟨w, h, 1⟩, .r8Unorm⟩)
    (htuv : lookupTexture gA t2 = some ⟨⟨w / 2, h / 2, 1⟩, .rg8Unorm⟩)
    (hshort : frame.length < w * h + w / 2 * (h / 2) * 2) :
    (do
        let lum ← sliceTo frame (w * h)
        let gpu1 ← writeTexture gA t1 lum w h ⟨w, h, 1⟩
        let chr ← sliceFrom frame (w * h)
        let gpu2 ← writeTexture gpu1 t2 chr w (h / 2) ⟨w / 2, h / 2, 1⟩
        some (f gpu2)) = none := by
  by_cases hwh : w * h ≤ frame.length
  · have h1 : sliceTo frame (w * h) = some (frame.take (w * h)) := by
      unfold sliceTo; rw [if_pos hwh]
    have htake : (frame.take (w * h)).length = w * h := by
      rw [List.length_take]; exact Nat.min_eq_left hwh
    have h2 : writeTexture gA t1 (frame.take (w * h)) w h ⟨w, h, 1⟩ =
        some { gA with texWrites :=
          ⟨t1, w, h, ⟨w, h, 1⟩, frame.take (w * h)⟩ :: gA.texWrites } := by
      apply writeTexture_success hty (le_refl _) (le_refl _)
      · right
        show w * 1 ≤ w
        rw [Nat.mul_one]
      · exact le_refl _
      · show requiredBytes w (w * 1) h ≤ _
        rw [htake]
        exact requiredBytes_luma w h
    have h3 : sliceFrom frame (w * h) = some (frame.drop (w * h)) := by
      unfold sliceFrom; rw [if_pos hwh]
    have hdroplt : (frame.drop (w * h)).length <
        requiredBytes w (w / 2 * 2) (h / 2) := by
      apply Nat.lt_of_lt_of_le _ (requiredBytes_chroma_ge w h)
      rw [List.length_drop]
      have hx : w * h + w / 2 * (h / 2) * 2 ≤ frame.length → False := by
        intro hcon
        exact absurd hcon (Nat.not_le_of_lt hshort)
      omega
    have htuv' : lookupTexture
        { gA with texWrites := ⟨t1, w, h, ⟨w, h, 1⟩, frame.take (w * h)⟩ :: gA.texWrites }
        t2 = some ⟨⟨w / 2, h / 2, 1⟩, .rg8Unorm⟩ := htuv
    have h4 : writeTexture
        { gA with texWrites := ⟨t1, w, h, ⟨w, h, 1⟩, frame.take (w * h)⟩ :: gA.texWrites }
        t2 (frame.drop (w * h)) w (h / 2) ⟨w / 2, h / 2, 1⟩ = none := by
      apply writeTexture_data_short htuv'
      show _ < requiredBytes w (w / 2 * 2) (h / 2)
      exact hdroplt
    rw [h1]
    simp only [Option.bind_eq_bind, Option.some_bind]
    rw [h2]
    simp only [Option.some_bind]
    rw [h3]
    simp only [Option.some_bind]
    rw [h4]
    simp only [Option.none_bind]
  · have h1 : sliceTo frame (w * h) = none := by
      unfold sliceTo; rw [if_neg hwh]
    rw [h1]
    simp only [Option.bind_eq_bind, Option.none_bind]

theorem upload_too_short {st0 : St} {id a w h : Nat} {frame : List Nat}
    (hdims : ∀ v, alookup st0.videos id = some v →
      lookupTexture st0.gpu v.texture_y = some ⟨⟨w, h, 1⟩, .r8Unorm⟩ ∧
      lookupTexture st0.gpu v.texture_uv = some ⟨⟨w / 2, h / 2, 1⟩, .rg8Unorm⟩)
    (hshort : frame.length < w * h + w / 2 * (h / 2) * 2) :
    VideoPipeline.upload st0 id a w h frame = none := by
  cases hv : alookup st0.videos id with
  | some v =>
    obtain ⟨hty, htuv⟩ := hdims v hv
    rw [upload_present hv]
    exact chain_st_short hty htuv hshort
  | none =>
    rw [upload_vacant hv]
    exact chain_st_short (freshGpu_lookup_y st0.gpu w h st0.sampler)
      (freshGpu_lookup_uv st0.gpu w h st0.sampler) hshort

theorem upload_some_log {st0 : St} {id a w h : Nat} {frame : List Nat} {st' : St}
    (hs : VideoPipeline.upload st0 id a w h frame = some st') :
    st'.log = st0.log ++ [Event.upload id] := by
  cases hv : alookup st0.videos id with
  | some v =>
    rw [upload_present hv] at hs
    obtain ⟨-, hst⟩ := chain_st_some hs
    rw [hst]
  | none =>
    rw [upload_vacant hv] at hs
    obtain ⟨-, hst⟩ := chain_st_some hs
    rw [hst]

theorem upload_present_fields {st0 : St} {id a w h : Nat} {frame : List Nat}
    {v : VideoEntry} {st' : St}
    (hv : alookup st0.videos id = some v)
    (hs : VideoPipeline.upload st0 id a w h frame = some st') :
    st'.videos = st0.videos ∧ st'.sampler = st0.sampler ∧
    st'.gpu.nextId = st0.gpu.nextId ∧ st'.gpu.textures = st0.gpu.textures ∧
    st'.gpu.views = st0.gpu.views ∧ st'.gpu.buffers = st0.gpu.buffers ∧
    st'.gpu.bindGroups = st0.gpu.bindGroups ∧ st'.gpu.bufData = st0.gpu.bufData ∧
    st'.gpu.destroyed = st0.gpu.destroyed := by
  rw [upload_present hv] at hs
  obtain ⟨-, hst⟩ := chain_st_some hs
  subst hst
  exact ⟨rfl, rfl, rfl, rfl, rfl, rfl, rfl, rfl, rfl⟩

/-- C10: an `upload` call for a VideoId whose cache entry already exists
leaves the stored entry unchanged — in particular the liveness-flag
reference it captured at creation — even when the call passes a different
flag, so sweep eligibility is always judged against the original flag. -/
theorem c10_upload_keeps_original_flag (st0 : St) (id a w h : Nat) (frame : List Nat)
    (v : VideoEntry) (st' : St)
    (hv : lookupVideo st0 id = some v)
    (hs : VideoPipeline.upload st0 id a w h frame = some st') :
    lookupVideo st' id = some v := by
  have hfields := upload_present_fields hv hs
  rw [lookupVideo, hfields.1]
  exact hv

theorem c10_upload_keeps_original_flag_witness :
    lookupVideo ((VideoPipeline.upload stUp 1 77 2 2 frame6).getD stUp) 1 = some entryUp :=
  c10_upload_keeps_original_flag stUp 1 77 2 2 frame6 entryUp
    ((VideoPipeline.upload stUp 1 77 2 2 frame6).getD stUp) (by decide) (by decide)

/-- C4 counterexample: for width 3, height 4 the frame length
`3*4 + (3/2)*(4/2)*2 = 16` is exactly the contract length, yet `upload`
panics: the chroma copy describes `(4/2 - 1) * 3 + (3/2) * 2 = 5` bytes in
a 4-byte remainder, a fatal texture-write validation error.  So the claim
as stated fails for odd widths with height at least 4. -/
theorem c4_counterexample :
    (List.replicate 16 (0 : Nat)).length = 3 * 4 + 3 / 2 * (4 / 2) * 2 ∧
    VideoPipeline.upload VideoPipeline.new 1 0 3 4 (List.replicate 16 0) = none := by
  constructor
  · decide
  · decide

/-- C4 (amended): for every upload whose frame length is exactly
`w*h + (w/2)*(h/2)*2` and whose width is even (or height below 4, where
the chroma plane has at most one row), both slice operations succeed, the
upload completes, the first `w*h` bytes are recorded as written over the
luma texture's full extent and the remaining `(w/2)*(h/2)*2` bytes over
the chroma texture's full extent.  The `hdims` hypothesis states the cache
invariant that an existing entry's textures carry the supplied dimensions
(trivially true on a first upload). -/
theorem c4_exact_length_upload (st0 : St) (id a w h : Nat) (frame : List Nat)
    (hdims : ∀ v, lookupVideo st0 id = some v →
      lookupTexture st0.gpu v.texture_y = some ⟨⟨w, h, 1⟩, .r8Unorm⟩ ∧
      lookupTexture st0.gpu v.texture_uv = some ⟨⟨w / 2, h / 2, 1⟩, .rg8Unorm⟩)
    (hlen : frame.length = w * h + w / 2 * (h / 2) * 2)
    (hpar : w % 2 = 0 ∨ h < 4) :
    sliceTo frame (w * h) = some (frame.take (w * h)) ∧
    sliceFrom frame (w * h) = some (frame.drop (w * h)) ∧
    (frame.take (w * h)).length = w * h ∧
    (frame.drop (w * h)).length = w / 2 * (h / 2) * 2 ∧
    ∃ st' v, VideoPipeline.upload st0 id a w h frame = some st' ∧
      lookupVideo st' id = some v ∧
      lookupTexture st'.gpu v.texture_y = some ⟨⟨w, h, 1⟩, .r8Unorm⟩ ∧
      lookupTexture st'.gpu v.texture_uv = some ⟨⟨w / 2, h / 2, 1⟩, .rg8Unorm⟩ ∧
      st'.gpu.texWrites =
        ⟨v.texture_uv, w, h / 2, ⟨w / 2, h / 2, 1⟩, frame.drop (w * h)⟩ ::
        ⟨v.texture_y, w, h, ⟨w, h, 1⟩, frame.take (w * h)⟩ :: st0.gpu.texWrites := by
  have hge : w * h + w / 2 * (h / 2) * 2 ≤ frame.length := le_of_eq hlen.symm
  have hwh : w * h ≤ frame.length := le_trans (Nat.le_add_right _ _) hge
  refine ⟨by unfold sliceTo; rw [if_pos hwh], by unfold sliceFrom; rw [if_pos hwh], ?_, ?_, ?_⟩
  · rw [List.length_take]
    exact Nat.min_eq_left hwh
  · rw [List.length_drop, hlen]
    exact Nat.add_sub_cancel_left _ _
  · cases hv : alookup st0.videos id with
    | some v =>
      obtain ⟨hty, htuv⟩ := hdims v hv
      refine ⟨_, v, upload_present_success hv hty htuv hge hpar, ?_, hty, htuv, rfl⟩
      exact hv
    | none =>
      refine ⟨_, freshEntry st0.gpu.nextId a, upload_vacant_success hv hge hpar, ?_, ?_, ?_, rfl⟩
      · show alookup ((id, freshEntry st0.gpu.nextId a) :: st0.videos) id = _
        simp [alookup]
      · exact freshGpu_lookup_y st0.gpu w h st0.sampler
      · exact freshGpu_lookup_uv st0.gpu w h st0.sampler

theorem c4_exact_length_upload_witness :
    sliceTo frame6 (2 * 2) = some (frame6.take (2 * 2)) ∧
    sliceFrom frame6 (2 * 2) = some (frame6.drop (2 * 2)) ∧
    (frame6.take (2 * 2)).length = 2 * 2 ∧
    (frame6.drop (2 * 2)).length = 2 / 2 * (2 / 2) * 2 ∧
    ∃ st' v, VideoPipeline.upload VideoPipeline.new 1 0 2 2 frame6 = some st' ∧
      lookupVideo st' 1 = some v ∧
      lookupTexture st'.gpu v.texture_y = some ⟨⟨2, 2, 1⟩, .r8Unorm⟩ ∧
      lookupTexture st'.gpu v.texture_uv = some ⟨⟨2 / 2, 2 / 2, 1⟩, .rg8Unorm⟩ ∧
      st'.gpu.texWrites =
        ⟨v.texture_uv, 2, 2 / 2, ⟨2 / 2, 2 / 2, 1⟩, frame6.drop (2 * 2)⟩ ::
        ⟨v.texture_y, 2, 2, ⟨2, 2, 1⟩, frame6.take (2 * 2)⟩ ::
        VideoPipeline.new.gpu.texWrites :=
  c4_exact_length_upload VideoPipeline.new 1 0 2 2 frame6
    (fun v hv => Option.noConfusion hv) (by decide) (Or.inl (by decide))

/-- C5 counterexample: a frame one byte longer than the contract length
`2*2 + (2/2)*(2/2)*2 = 6` is accepted by `upload` — the excess byte is
silently ignored by the texture writes — rather than rejected by an
assertion or internal error, so the claim as stated fails for over-long
frames. -/
theorem c5_counterexample :
    (List.replicate 7 (0 : Nat)).length ≠ 2 * 2 + 2 / 2 * (2 / 2) * 2 ∧
    (VideoPipeline.upload VideoPipeline.new 1 0 2 2 (List.replicate 7 0)).isSome = true := by
  constructor
  · decide
  · decide

/-- C5 (amended): for every dimension pair, a frame shorter than the
contract length makes `upload` panic — an out-of-bounds slice or a fatal
texture-write validation error, modelled as `none` — and is never surfaced
as a recoverable error; and when the width is even (or the height is below
4, where the chroma copy has at most one row), a frame of at least the
contract length is accepted, with any excess bytes silently ignored rather
than rejected.  (For odd width with height at least 4 an over-long frame
may still panic, since the chroma layout of the source describes more than
the contract's chroma bytes.)  `hdims` is the cache invariant that an
existing entry's textures carry the supplied dimensions. -/
theorem c5_amended_length_handling (st0 : St) (id a w h : Nat) (frame : List Nat)
    (hdims : ∀ v, lookupVideo st0 id = some v →
      lookupTexture st0.gpu v.texture_y = some ⟨⟨w, h, 1⟩, .r8Unorm⟩ ∧
      lookupTexture st0.gpu v.texture_uv = some ⟨⟨w / 2, h / 2, 1⟩, .rg8Unorm⟩) :
    (frame.length < w * h + w / 2 * (h / 2) * 2 →
      VideoPipeline.upload st0 id a w h frame = none) ∧
    (w % 2 = 0 ∨ h < 4 →
      w * h + w / 2 * (h / 2) * 2 ≤ frame.length →
      (VideoPipeline.upload st0 id a w h frame).isSome = true) := by
  constructor
  · intro hshort
    exact upload_too_short hdims hshort
  · intro hpar hlen
    cases hv : alookup st0.videos id with
    | some v =>
      obtain ⟨hty, htuv⟩ := hdims v hv
      rw [upload_present_success hv hty htuv hlen hpar]
      rfl
    | none =>
      rw [upload_vacant_success hv hlen hpar]
      rfl

theorem c5_amended_length_handling_witness :
    ((List.replicate 5 (0 : Nat)).length < 2 * 2 + 2 / 2 * (2 / 2) * 2 →
      VideoPipeline.upload VideoPipeline.new 1 0 2 2 (List.replicate 5 0) = none) ∧
    (2 % 2 = 0 ∨ 2 < 4 →
      2 * 2 + 2 / 2 * (2 / 2) * 2 ≤ (List.replicate 5 (0 : Nat)).length →
      (VideoPipeline.upload VideoPipeline.new 1 0 2 2 (List.replicate 5 0)).isSome = true) :=
  c5_amended_length_handling VideoPipeline.new 1 0 2 2 (List.replicate 5 0)
    (fun v hv => Option.noConfusion hv)

theorem uploadSeq_stable (rest : List (List Nat)) (st1 : St) (id a w h : Nat)
    (v : VideoEntry)
    (hv : alookup st1.videos id = some v)
    (hty : lookupTexture st1.gpu v.texture_y = some ⟨⟨w, h, 1⟩, .r8Unorm⟩)
    (htuv : lookupTexture st1.gpu v.texture_uv = some ⟨⟨w / 2, h / 2, 1⟩, .rg8Unorm⟩)
    (hpar : w % 2 = 0 ∨ h < 4)
    (hlen : ∀ f ∈ rest, w * h + w / 2 * (h / 2) * 2 ≤ f.length) :
    ∃ stN, uploadSeq st1 id a w h rest = some stN ∧
      stN.videos = st1.videos ∧
      stN.gpu.nextId = st1.gpu.nextId ∧ stN.gpu.textures = st1.gpu.textures ∧
      stN.gpu.views = st1.gpu.views ∧ stN.gpu.buffers = st1.gpu.buffers ∧
      stN.gpu.bindGroups = st1.gpu.bindGroups := by
  induction rest generalizing st1 with
  | nil => exact ⟨st1, rfl, rfl, rfl, rfl, rfl, rfl, rfl⟩
  | cons f fs ih =>
    have hup := @upload_present_success st1 id a w h f v hv hty htuv
      (hlen f (List.mem_cons_self f fs)) hpar
    have hstep : uploadSeq st1 id a w h (f :: fs) =
        uploadSeq { st1 with
          log := st1.log ++ [Event.upload id],
          gpu := { st1.gpu with texWrites :=
            ⟨v.texture_uv, w, h / 2, ⟨w / 2, h / 2, 1⟩, f.drop (w * h)⟩ ::
            ⟨v.texture_y, w, h, ⟨w, h, 1⟩, f.take (w * h)⟩ :: st1.gpu.texWrites } }
          id a w h fs := by
      show (do
          let st' ← VideoPipeline.upload st1 id a w h f
          uploadSeq st' id a w h fs) = _
      rw [hup]
      simp only [Option.bind_eq_bind, Option.some_bind]
    rw [hstep]
    exact ih _ hv hty htuv (fun g hg => hlen g (List.mem_cons_of_mem f hg))

theorem filter_key_count_one {vs : List (Nat × VideoEntry)} {id : Nat}
    (h : alookup vs id = none) (e : VideoEntry) :
    (((id, e) :: vs).filter (fun p => p.1 == id)).length = 1 := by
  rw [List.filter_cons]
  have hid : (((id, e) : Nat × VideoEntry).1 == id) = true := by simp
  rw [if_pos hid]
  have hnil : vs.filter (fun p => p.1 == id) = [] := by
    rw [List.filter_eq_nil_iff]
    intro p hp
    have hne := alookup_eq_none_iff.mp h p hp
    simp [hne]
  rw [hnil]
  rfl

/-- C3: for a sequence of uploads that all supply the same `(w, h)` for a
given id (with well-formed frame lengths, and even width or height below 4
so the writes validate), starting from a cache with no entry for that id:
after the whole sequence the cache holds exactly one entry for the id; the
entry is the one created on the first call, its luma texture is a
single-channel `w x h` `R8Unorm` texture and its chroma texture a
two-channel `w/2 x h/2` `Rg8Unorm` texture; and no upload after the first
allocates any texture, view, buffer or bind group (the id counter and
every resource list stay exactly as after the first call). -/
theorem c3_one_entry_no_realloc (st0 : St) (id a w h : Nat)
    (f0 : List Nat) (rest : List (List Nat))
    (hvac : lookupVideo st0 id = none)
    (hpar : w % 2 = 0 ∨ h < 4)
    (hlen : ∀ f ∈ f0 :: rest, w * h + w / 2 * (h / 2) * 2 ≤ f.length) :
    ∃ st1 stN, VideoPipeline.upload st0 id a w h f0 = some st1 ∧
      uploadSeq st1 id a w h rest = some stN ∧
      (stN.videos.filter (fun p => p.1 == id)).length = 1 ∧
      lookupVideo stN id = some (freshEntry st0.gpu.nextId a) ∧
      lookupTexture stN.gpu (freshEntry st0.gpu.nextId a).texture_y =
        some ⟨⟨w, h, 1⟩, .r8Unorm⟩ ∧
      lookupTexture stN.gpu (freshEntry st0.gpu.nextId a).texture_uv =
        some ⟨⟨w / 2, h / 2, 1⟩, .rg8Unorm⟩ ∧
      stN.videos = st1.videos ∧
      stN.gpu.nextId = st1.gpu.nextId ∧ stN.gpu.textures = st1.gpu.textures ∧
      stN.gpu.views = st1.gpu.views ∧ stN.gpu.buffers = st1.gpu.buffers ∧
      stN.gpu.bindGroups = st1.gpu.bindGroups := by
  have hup := @upload_vacant_success st0 id a w h f0 hvac
    (hlen f0 (List.mem_cons_self f0 rest)) hpar
  have hv1 : alookup ((id, freshEntry st0.gpu.nextId a) :: st0.videos) id =
      some (freshEntry st0.gpu.nextId a) := by
    simp [alookup]
  obtain ⟨stN, hseq, hvids, hnext, htex, hviews, hbufs, hbgs⟩ :=
    uploadSeq_stable rest
      { st0 with
        videos := (id, freshEntry st0.gpu.nextId a) :: st0.videos,
        gpu := { freshGpu st0.gpu w h st0.sampler with texWrites :=
          ⟨st0.gpu.nextId + 1, w, h / 2, ⟨w / 2, h / 2, 1⟩, f0.drop (w * h)⟩ ::
          ⟨st0.gpu.nextId, w, h, ⟨w, h, 1⟩, f0.take (w * h)⟩ :: st0.gpu.texWrites },
        log := st0.log ++ [Event.upload id] }
      id a w h (freshEntry st0.gpu.nextId a) hv1
      (freshGpu_lookup_y st0.gpu w h st0.sampler)
      (freshGpu_lookup_uv st0.gpu w h st0.sampler)
      hpar (fun g hg => hlen g (List.mem_cons_of_mem f0 hg))
  refine ⟨_, stN, hup, hseq, ?_, ?_, ?_, ?_, hvids, hnext, htex, hviews, hbufs, hbgs⟩
  · rw [hvids]
    exact filter_key_count_one hvac _
  · rw [lookupVideo, hvids]
    exact hv1
  · rw [lookupTexture, htex]
    exact freshGpu_lookup_y st0.gpu w h st0.sampler
  · rw [lookupTexture, htex]
    exact freshGpu_lookup_uv st0.gpu w h st0.sampler

theorem c3_one_entry_no_realloc_witness :
    ∃ st1 stN, VideoPipeline.upload VideoPipeline.new 1 10 2 2 frame6 = some st1 ∧
      uploadSeq st1 1 10 2 2 [frame6, frame6] = some stN ∧
      (stN.videos.filter (fun p => p.1 == 1)).length = 1 ∧
      lookupVideo stN 1 = some (freshEntry VideoPipeline.new.gpu.nextId 10) ∧
      lookupTexture stN.gpu (freshEntry VideoPipeline.new.gpu.nextId 10).texture_y =
        some ⟨⟨2, 2, 1⟩, .r8Unorm⟩ ∧
      lookupTexture stN.gpu (freshEntry VideoPipeline.new.gpu.nextId 10).texture_uv =
        some ⟨⟨2 / 2, 2 / 2, 1⟩, .rg8Unorm⟩ ∧
      stN.videos = st1.videos ∧
      stN.gpu.nextId = st1.gpu.nextId ∧ stN.gpu.textures = st1.gpu.textures ∧
      stN.gpu.views = st1.gpu.views ∧ stN.gpu.buffers = st1.gpu.buffers ∧
      stN.gpu.bindGroups = st1.gpu.bindGroups :=
  c3_one_entry_no_realloc VideoPipeline.new 1 10 2 2 frame6 [frame6, frame6]
    (by decide) (Or.inl (by decide)) (by decide)

/-- C6: the rectangle-write step of `prepare` on an id not present in the
cache is a no-op — it creates no entry, leaves the `videos` map and the
whole device state unchanged, and cannot fail (it is a total function). -/
theorem c6_write_rect_absent_noop (st : St) (id : Nat) (b : URect)
    (habs : lookupVideo st id = none) :
    (writeRectStep st id b).videos = st.videos ∧
    (writeRectStep st id b).gpu = st.gpu := by
  have habs' : alookup st.videos id = none := habs
  unfold writeRectStep
  dsimp only
  rw [habs']
  exact ⟨rfl, rfl⟩

theorem c6_write_rect_absent_noop_witness :
    (writeRectStep VideoPipeline.new 1 rectW).videos = VideoPipeline.new.videos ∧
    (writeRectStep VideoPipeline.new 1 rectW).gpu = VideoPipeline.new.gpu :=
  c6_write_rect_absent_noop VideoPipeline.new 1 rectW (by decide)

/-- C7: `draw` on an id not in the cache performs no pipeline binding and
issues no draw call — the state is unchanged and no error is raised —
while `draw` on a present id sets the pipeline, binds the entry's bind
group at slot 0, and issues the single non-indexed 4-vertex draw call
`draw(0..4, 0..1)` and nothing else. -/
theorem c7_draw_skip_or_single_quad (st stp : St) (vp : URect) (id idp : Nat)
    (v : VideoEntry)
    (habs : lookupVideo st id = none) (hpres : lookupVideo stp idp = some v) :
    VideoPipeline.draw st vp id = st ∧
    VideoPipeline.draw stp vp idp =
      { stp with log := stp.log ++
        [Event.setPipeline, Event.setBindGroup 0 v.bg0, Event.draw 4 1] } := by
  constructor
  · unfold VideoPipeline.draw
    rw [show alookup st.videos id = none from habs]
  · unfold VideoPipeline.draw
    rw [show alookup stp.videos idp = some v from hpres]

theorem c7_draw_skip_or_single_quad_witness :
    VideoPipeline.draw VideoPipeline.new rectW 1 = VideoPipeline.new ∧
    VideoPipeline.draw stUp rectW 1 =
      { stUp with log := stUp.log ++
        [Event.setPipeline, Event.setBindGroup 0 entryUp.bg0, Event.draw 4 1] } :=
  c7_draw_skip_or_single_quad VideoPipeline.new stUp rectW 1 1 entryUp
    (by decide) (by decide)

/-- C9: for an id present in the cache, after the rectangle-write step with
bounds `b` the entry's uniform buffer contains exactly the four pixel
coordinates `[x0, y0, x0 + width, y0 + height]` of the last supplied
rectangle. -/
theorem c9_rect_uniform_contents (st : St) (id : Nat) (b : URect) (v : VideoEntry)
    (hpres : lookupVideo st id = some v) :
    bufContents (writeRectStep st id b).gpu v.uniforms =
      some [b.x, b.y, b.x + b.width, b.y + b.height] := by
  unfold writeRectStep
  dsimp only
  rw [show alookup st.videos id = some v from hpres]
  simp [bufContents, writeBuffer, alookup, rectVals]

theorem c9_rect_uniform_contents_witness :
    bufContents (writeRectStep stUp 1 rectW).gpu entryUp.uniforms =
      some [rectW.x, rectW.y, rectW.x + rectW.width, rectW.y + rectW.height] :=
  c9_rect_uniform_contents stUp 1 rectW entryUp (by decide)

theorem writeRectStep_log (st : St) (id : Nat) (b : URect) :
    (writeRectStep st id b).log = st.log ++ [Event.writeRect id] := by
  unfold writeRectStep
  dsimp only
  cases h : alookup st.videos id with
  | none => rfl
  | some v => rfl

theorem cleanup_log (flags : Nat → Bool) (st : St) :
    (VideoPipeline.cleanup flags st).log = st.log ++ [Event.sweep] := by
  unfold VideoPipeline.cleanup
  rw [foldl_removeDead_log]

theorem pipeline_prepare_log (flags : Nat → Bool) (st : St) (id : Nat) (b : URect) :
    (VideoPipeline.prepare flags st id b).log =
      st.log ++ [Event.writeRect id, Event.sweep] := by
  unfold VideoPipeline.prepare
  rw [cleanup_log, writeRectStep_log, List.append_assoc]
  rfl

theorem roPrepare_log {flags : Nat → Bool} {ctx : VideoPrimitive} {st : St} {b : URect}
    {st' : St} (hs : VideoRO.prepare flags ctx st b = some st') :
    st'.log = st.log ++
      (if ctx.upload_frame then [Event.upload ctx.video_id] else []) ++
      [Event.writeRect ctx.video_id, Event.sweep] := by
  unfold VideoRO.prepare at hs
  cases hu : ctx.upload_frame with
  | false =>
    rw [hu] at hs
    simp only [Bool.false_eq_true, if_false, Option.bind_eq_bind, Option.some_bind,
      Option.some_inj] at hs
    rw [← hs, pipeline_prepare_log]
    simp
  | true =>
    rw [hu] at hs
    simp only [if_true, Option.bind_eq_bind, Option.bind_eq_some, Option.some_inj] at hs
    obtain ⟨stU, hsU, hst'⟩ := hs
    rw [← hst', pipeline_prepare_log, upload_some_log hsU]
    simp [List.append_assoc]

/-- C8: on every successful render pass, `VideoRO::prepare` first runs the
rectangle-write step and then invokes the sweep — its log grows by an
optional upload event followed by exactly `writeRect` then `sweep`,
regardless of whether the pass uploaded a frame — and the render step
never invokes the sweep: `VideoRO::render` appends only pipeline-binding
and draw events. -/
theorem c8_prepare_sweeps_render_does_not (flags : Nat → Bool) (ctx : VideoPrimitive)
    (st : St) (b : URect) (st' : St) (st2 : St) (clip : URect) (id2 : Nat)
    (hs : VideoRO.prepare flags ctx st b = some st') :
    st'.log = st.log ++
      (if ctx.upload_frame then [Event.upload ctx.video_id] else []) ++
      [Event.writeRect ctx.video_id, Event.sweep] ∧
    (∀ e ∈ (VideoRO.render st2 clip id2).log, e ∈ st2.log ∨ e ≠ Event.sweep) := by
  constructor
  · exact roPrepare_log hs
  · intro e he
    unfold VideoRO.render VideoPipeline.draw at he
    cases hl : alookup st2.videos id2 with
    | none =>
      rw [hl] at he
      exact Or.inl he
    | some v =>
      rw [hl] at he
      dsimp only at he
      rcases List.mem_append.mp he with h1 | h1
      · exact Or.inl h1
      · right
        intro heq
        subst heq
        simp at h1

theorem c8_prepare_sweeps_render_does_not_witness :
    ((VideoRO.prepare flagsW ctxW stUp rectW).getD stUp).log = stUp.log ++
      (if ctxW.upload_frame then [Event.upload ctxW.video_id] else []) ++
      [Event.writeRect ctxW.video_id, Event.sweep] ∧
    (∀ e ∈ (VideoRO.render stUp rectW 1).log, e ∈ stUp.log ∨ e ≠ Event.sweep) :=
  c8_prepare_sweeps_render_does_not flagsW ctxW stUp rectW
    ((VideoRO.prepare flagsW ctxW stUp rectW).getD stUp) stUp rectW 1 (by decide)

/-- C2: on each redraw the consumer requests re-upload exactly when the
frame dynamic's current generation differs from the last generation it
recorded, and it then records the current generation — so an unchanged
generation never triggers an upload, a bumped generation is detected on
the very next check, and the render operation's prepare step performs the
upload exactly when the requested flag is set. -/
theorem c2_generation_change_detection (gen : Nat) (p : PlayerState) :
    ((VideoPlayer.redraw gen p).1 = true ↔ gen ≠ p.lastFrame) ∧
    (VideoPlayer.redraw gen p).2.lastFrame = gen ∧
    (∀ gen', ((VideoPlayer.redraw gen' (VideoPlayer.redraw gen p).2).1 = true ↔
      gen' ≠ gen)) ∧
    (∀ (flags : Nat → Bool) (ctx : VideoPrimitive) (st : St) (b : URect) (st' : St),
      VideoRO.prepare flags ctx st b = some st' →
      (Event.upload ctx.video_id ∈ st'.log.drop st.log.length ↔
        ctx.upload_frame = true)) := by
  refine ⟨?_, rfl, ?_, ?_⟩
  · simp [VideoPlayer.redraw]
  · intro gen'
    simp [VideoPlayer.redraw]
  · intro flags ctx st b st' hs
    rw [roPrepare_log hs, List.append_assoc, List.drop_left]
    cases hu : ctx.upload_frame with
    | false => simp
    | true => simp

theorem c2_generation_change_detection_witness :
    ((VideoPlayer.redraw 1 ⟨0⟩).1 = true ↔ (1 : Nat) ≠ (⟨0⟩ : PlayerState).lastFrame) ∧
    (VideoPlayer.redraw 1 ⟨0⟩).2.lastFrame = 1 ∧
    (∀ gen', ((VideoPlayer.redraw gen' (VideoPlayer.redraw 1 ⟨0⟩).2).1 = true ↔
      gen' ≠ 1)) ∧
    (∀ (flags : Nat → Bool) (ctx : VideoPrimitive) (st : St) (b : URect) (st' : St),
      VideoRO.prepare flags ctx st b = some st' →
      (Event.upload ctx.video_id ∈ st'.log.drop st.log.length ↔
        ctx.upload_frame = true)) :=
  c2_generation_change_detection 1 ⟨0⟩

theorem c1_sweep_iff_alive_witness :
    (lookupVideo (VideoPipeline.cleanup flagsW stTwo) 2 = some entryDead ↔
      lookupVideo stTwo 2 = some entryDead ∧ flagsW entryDead.alive = true) ∧
    ((2, entryDead) ∈ stTwo.videos → flagsW entryDead.alive = false →
      entryDead.texture_y ∈ (VideoPipeline.cleanup flagsW stTwo).gpu.destroyed ∧
      entryDead.texture_uv ∈ (VideoPipeline.cleanup flagsW stTwo).gpu.destroyed ∧
      entryDead.uniforms ∈ (VideoPipeline.cleanup flagsW stTwo).gpu.destroyed) :=
  c1_sweep_iff_alive flagsW stTwo 2 entryDead (by decide)
